import Mathlib

/-!
Shallow embedding of the safe-wrapper layer of a multimedia FFI binding
(ownership handles, UTF-32/UTF-8 string bridge, callback trampoline
lifecycle, view wrapper, string-vector iterator), with theorems checking
the specification's claims against the code.

Foreign calls are modelled by passing the foreign side's return values in
as parameters and by recording the calls a wrapper operation performs as an
explicit event list.
-/

/-- A raw foreign pointer, modelled as a natural number; `0` is the null
pointer. -/
abbrev Ptr := Nat

/-- Modelled from the spec: the typed error `acquire` returns when the
foreign factory yields null (the `FBox`/`SfResult` machinery lives in
`crate::cpp`, outside the excerpt; only its callers `View::new` and
`Context::new` are in the source). -/
inductive AllocationError where
  | allocationFailed
deriving DecidableEq, Repr

/-- Kinds of foreign calls a wrapper operation can perform, recorded as an
event trace. -/
inductive ForeignCall where
  | constructorCall
  | destructorCall
  | copyCall
deriving DecidableEq, Repr

/-- Modelled from the spec: an owning handle (`FBox`) wraps one raw foreign
pointer. -/
structure FBox where
  ptr : Ptr
deriving DecidableEq, Repr

/-- Modelled from the spec: `acquire(raw_ptr)` — `FBox::new` followed by
`into_sf_result`, as used by `View::new` and `Context::new`. Takes the
pointer the foreign constructor returned; yields the result paired with the
foreign calls `acquire` itself performs (none: it only inspects the
pointer). -/
def acquire (p : Ptr) : Except AllocationError FBox × List ForeignCall :=
  (if p = 0 then .error .allocationFailed else .ok ⟨p⟩, [])

/-- Embeds `View::new`: `FBox::new(unsafe { ffi::sfView_new() }).into_sf_result()`.
The parameter is the pointer returned by `sfView_new`. -/
def View.new (raw : Ptr) : Except AllocationError FBox × List ForeignCall :=
  acquire raw

/-- Embeds `Context::new`: `FBox::new(unsafe { ffi::sfContext_new() }).into_sf_result()`.
The parameter is the pointer returned by `sfContext_new`. -/
def Context.new (raw : Ptr) : Except AllocationError FBox × List ForeignCall :=
  acquire raw

/-- C1: `acquire(p)` succeeds if and only if `p` is non-null; on null it
fails with the typed allocation error and performs no foreign destructor
call; `View::new` and `Context::new` are exactly this operation applied to
their factory's result. -/
theorem acquire_ok_iff_nonnull (p : Ptr) :
    ((acquire p).1.isOk = true ↔ p ≠ 0)
    ∧ (p = 0 → (acquire p).1 = .error .allocationFailed)
    ∧ (acquire p).2.count .destructorCall = 0
    ∧ View.new p = acquire p ∧ Context.new p = acquire p := by
  refine ⟨?_, ?_, ?_, rfl, rfl⟩
  · by_cases h : p = 0 <;> simp [acquire, h, Except.isOk, Except.toBool]
  · intro h; simp [acquire, h]
  · simp [acquire]

/-- Witness for C1 at the null pointer and at a concrete non-null
pointer. -/
theorem acquire_ok_iff_nonnull_witness :
    (acquire 0).1 = .error .allocationFailed ∧ (acquire 5).1.isOk = true :=
  ⟨(acquire_ok_iff_nonnull 0).2.1 rfl,
   (acquire_ok_iff_nonnull 5).1.mpr (by decide)⟩

/-- Embeds `impl Clone for CircleShape`: calls `sfCircleShape_cpy` and wraps the
returned pointer, panicking (`none`) when it is null
(`NonNull::new(circle).expect(..)`). The parameter is the pointer the
foreign copy constructor returned; the trace records the copy call. -/
def CircleShape.clone (cpyResult : Ptr) : Option FBox × List ForeignCall :=
  (if cpyResult = 0 then none else some ⟨cpyResult⟩, [.copyCall])

/-- Embeds `impl ToOwned for View`: calls `sfView_cpy` and wraps the returned
pointer, panicking (`none`) when it is null (`FBox::new(view).expect(..)`). -/
def View.toOwned (cpyResult : Ptr) : Option FBox × List ForeignCall :=
  (if cpyResult = 0 then none else some ⟨cpyResult⟩, [.copyCall])

/-- C7: cloning invokes the foreign copy constructor exactly once and
panics if and only if that call returned null; on success the new owning
handle wraps exactly the freshly copied allocation's pointer. Holds for
both `CircleShape::clone` and `View::to_owned`. -/
theorem clone_panics_iff_copy_null (p : Ptr) :
    ((CircleShape.clone p).1 = none ↔ p = 0)
    ∧ (∀ h : FBox, (CircleShape.clone p).1 = some h → h.ptr = p)
    ∧ (CircleShape.clone p).2 = [.copyCall]
    ∧ ((View.toOwned p).1 = none ↔ p = 0)
    ∧ (∀ h : FBox, (View.toOwned p).1 = some h → h.ptr = p)
    ∧ (View.toOwned p).2 = [.copyCall] := by
  by_cases hp : p = 0
  · simp [CircleShape.clone, View.toOwned, hp]
  · refine ⟨by simp [CircleShape.clone, hp], ?_, rfl,
      by simp [View.toOwned, hp], ?_, rfl⟩ <;>
      · intro h hh
        simp only [CircleShape.clone, View.toOwned, if_neg hp] at hh
        injection hh with hh
        rw [← hh]

/-- Witness for C7 at the null result and at a concrete non-null one. -/
theorem clone_panics_iff_copy_null_witness :
    (CircleShape.clone 0).1 = none ∧ (View.toOwned 7).1 ≠ none :=
  ⟨(clone_panics_iff_copy_null 0).1.mpr rfl,
   fun hnone => by
     have := (clone_panics_iff_copy_null 7).2.2.2.1.mp hnone
     simp at this⟩

/-- Embeds `impl Default for CircleShape`: wraps `sfCircleShape_new()`, panicking
(`none`) when it returns null (`NonNull::new(circle).expect(..)`). -/
def CircleShape.default (raw : Ptr) : Option FBox :=
  if raw = 0 then none else some ⟨raw⟩

/-- Embeds `impl RawDefault for View`: wraps `sfView_new()`, panicking (`none`)
when it returns null (`NonNull::new(..).expect("Failed to create view")`). -/
def View.rawDefault (raw : Ptr) : Option FBox :=
  if raw = 0 then none else some ⟨raw⟩

/-- C8: on a null foreign factory result, value-type construction
(`CircleShape::default`, `View`'s `raw_default`) panics (no value, no
typed error to catch), while top-level resource acquisition
(`Context::new`) fails recoverably with a typed error value. -/
theorem null_factory_failure_modes (raw : Ptr) :
    (CircleShape.default raw = none ↔ raw = 0)
    ∧ (View.rawDefault raw = none ↔ raw = 0)
    ∧ ((Context.new raw).1 = .error .allocationFailed ↔ raw = 0) := by
  by_cases hr : raw = 0 <;>
    simp [CircleShape.default, View.rawDefault, Context.new, acquire, hr]

/-- Witness for C8 at the null factory result. -/
theorem null_factory_failure_modes_witness :
    CircleShape.default 0 = none ∧ View.rawDefault 0 = none
    ∧ (Context.new 0).1 = .error .allocationFailed :=
  ⟨(null_factory_failure_modes 0).1.mpr rfl,
   (null_factory_failure_modes 0).2.1.mpr rfl,
   (null_factory_failure_modes 0).2.2.mpr rfl⟩

/-- Host-side and foreign-side events in a `CustomShape`'s lifetime. -/
inductive ShapeEvent where
  /-- Event for `Box::into_raw(Box::new(points))` in `CustomShape::new`: the
  capability box is heap-allocated. -/
  | boxAlloc
  /-- Event for `ffi::sfCustomShape_new(..)` in `CustomShape::new`. -/
  | foreignNew
  /-- the foreign side invoking `get_point_count_callback` or
  `get_point_callback`, which only borrow the box (`*const Box<..>`),
  never free it. -/
  | callbackInvoke
  /-- Event for `ffi::sfCustomShape_del(self.handle.as_ptr())` in `Drop`. -/
  | foreignDel
  /-- Event for `Box::from_raw(self.points.as_ptr())` in `Drop`: the capability box
  is reclaimed and dropped. -/
  | boxFree
deriving DecidableEq, Repr

/-- Embeds `CustomShape::new` (success case): allocates the capability box, then
hands its address to `sfCustomShape_new` as user-data. -/
def CustomShape.newTrace : List ShapeEvent :=
  [.boxAlloc, .foreignNew]

/-- Embeds `impl Drop for CustomShape`: destroys the foreign shape, then reclaims
the capability box; `Box::from_raw` occurs nowhere else in the wrapper. -/
def CustomShape.dropTrace : List ShapeEvent :=
  [.foreignDel, .boxFree]

/-- A full lifecycle of one `CustomShape`: construction, then `n` callback
invocations by the foreign side, then drop. -/
def CustomShape.lifecycle (n : Nat) : List ShapeEvent :=
  CustomShape.newTrace ++ List.replicate n .callbackInvoke ++ CustomShape.dropTrace

/-- Reading a replicated prefix plus a tail at an index past the prefix
lands in the tail. -/
theorem getD_replicate_append (n i : Nat) (l : List ShapeEvent) (d : ShapeEvent) :
    (List.replicate n ShapeEvent.callbackInvoke ++ l).getD (n + i) d = l.getD i d := by
  induction n with
  | zero => simp
  | succ k ih =>
    have : k + 1 + i = (k + i) + 1 := by omega
    simpa [List.replicate_succ, this] using ih

/-- Reading a replicated prefix plus a tail at an index inside the prefix
yields the replicated element. -/
theorem getD_replicate_append_lt (l : List ShapeEvent) (d : ShapeEvent)
    (n j : Nat) (hj : j < n) :
    (List.replicate n ShapeEvent.callbackInvoke ++ l).getD j d =
      ShapeEvent.callbackInvoke := by
  induction n generalizing j with
  | zero => omega
  | succ k ih =>
    match j with
    | 0 => simp [List.replicate_succ]
    | (m+1) =>
      have hm : m < k := by omega
      simpa [List.replicate_succ] using ih m hm

/-- C2: in every lifecycle of a `CustomShape` (any number of foreign
callback invocations), the capability box is freed exactly once, the free
is the very last event — at the moment `Drop` runs — the event immediately
before it is the foreign destructor call, and no earlier event frees the
box; so the box is never freed before the foreign shape is destroyed and
never leaked. -/
theorem custom_shape_box_freed_once_at_drop (n : Nat) :
    (CustomShape.lifecycle n).count .boxFree = 1
    ∧ (CustomShape.lifecycle n).getLast? = some .boxFree
    ∧ (CustomShape.lifecycle n).length = n + 4
    ∧ (CustomShape.lifecycle n).getD (n + 2) .boxAlloc = .foreignDel
    ∧ (∀ i, i < n + 3 → (CustomShape.lifecycle n).getD i .boxAlloc ≠ .boxFree) := by
  refine ⟨?_, ?_, ?_, ?_, ?_⟩
  · simp [CustomShape.lifecycle, CustomShape.newTrace, CustomShape.dropTrace,
      List.count_append, List.count_replicate]
  · simp [CustomShape.lifecycle, CustomShape.dropTrace, List.getLast?_append]
  · simp [CustomShape.lifecycle, CustomShape.newTrace, CustomShape.dropTrace]
  · show (ShapeEvent.boxAlloc :: ShapeEvent.foreignNew ::
      (List.replicate n ShapeEvent.callbackInvoke ++ CustomShape.dropTrace)).getD
        (n + 2) ShapeEvent.boxAlloc = ShapeEvent.foreignDel
    have h2 : n + 2 = (n + 1) + 1 := rfl
    rw [h2, List.getD_cons_succ, List.getD_cons_succ]
    simpa using getD_replicate_append n 0 CustomShape.dropTrace ShapeEvent.boxAlloc
  · intro i hi
    show (ShapeEvent.boxAlloc :: ShapeEvent.foreignNew ::
      (List.replicate n ShapeEvent.callbackInvoke ++ CustomShape.dropTrace)).getD
        i ShapeEvent.boxAlloc ≠ ShapeEvent.boxFree
    match i with
    | 0 => simp [List.getD_cons_zero]
    | 1 => simp [List.getD_cons_succ, List.getD_cons_zero]
    | (j+2) =>
      rw [List.getD_cons_succ, List.getD_cons_succ]
      by_cases hj : j < n
      · rw [getD_replicate_append_lt _ _ n j hj]
        simp
      · have hj2 : j = n + 0 := by omega
        rw [hj2, getD_replicate_append n 0 CustomShape.dropTrace ShapeEvent.boxAlloc]
        simp [CustomShape.dropTrace]

/-- Witness for C2 at two callback invocations. -/
theorem custom_shape_box_freed_once_at_drop_witness :
    (CustomShape.lifecycle 2).count .boxFree = 1
    ∧ (CustomShape.lifecycle 2).getD 0 .boxAlloc ≠ .boxFree :=
  ⟨(custom_shape_box_freed_once_at_drop 2).1,
   (custom_shape_box_freed_once_at_drop 2).2.2.2.2 0 (by decide)⟩

/-- A 32-bit code unit is a valid Unicode scalar value — exactly what
`char::from_u32` (used by widestring's UTF-32 decoding) accepts: below the
surrogate block, or past it and below `0x110000`. -/
def validScalar (u : Nat) : Bool :=
  decide (u < 0xD800) || (decide (0xDFFF < u) && decide (u < 0x110000))

/-- Structure `SfStrConvError` wraps the widestring `Utf32Error`; `index` is the
position in the code-unit sequence where decoding failed. -/
structure SfStrConvError where
  index : Nat
deriving DecidableEq, Repr

/-- The decoding loop of widestring's `U32CStr::to_string`: converts code
units in order, stopping with an error carrying the position of the first
invalid unit (`i` is the position of the current head). -/
def decodeFrom (i : Nat) : List Nat → Except SfStrConvError (List Char)
  | [] => .ok []
  | u :: rest =>
    if validScalar u then
      match decodeFrom (i + 1) rest with
      | .ok cs => .ok (Char.ofNat u :: cs)
      | .error e => .error e
    else .error ⟨i⟩

/-- Embeds `SfStr::try_to_rust_string`: `self.0.to_string()` mapped into
`SfStrConvError`. The `SfStr` content is its code-unit sequence. -/
def SfStr.tryToRustString (buf : List Nat) : Except SfStrConvError (List Char) :=
  decodeFrom 0 buf

/-- Embeds `SfStr::to_rust_string`: `self.0.to_string().unwrap()` — panics
(modelled `none`) when the content is not valid UTF-32. -/
def SfStr.toRustString (buf : List Nat) : Option (List Char) :=
  (SfStr.tryToRustString buf).toOption

/-- The Unicode replacement character U+FFFD. -/
def replacementChar : Char := Char.ofNat 0xFFFD

/-- widestring's `to_string_lossy` on a UTF-32 slice: every invalid code
unit becomes the replacement character. -/
def toStringLossy (buf : List Nat) : List Char :=
  buf.map fun u => if validScalar u then Char.ofNat u else replacementChar

/-- Embeds `impl fmt::Display for SfString`: formats `self.data()` through
`U32Str::from_slice(..).to_string_lossy()`. -/
def SfString.displayString (buf : List Nat) : List Char :=
  toStringLossy buf

/-- Embeds `impl SfStrConv for &str` (`with_as_sfstr`):
`U32CString::from_str(self).unwrap()` — panics (modelled `none`) when the
string contains a nul value, otherwise yields the UTF-32 code units with a
terminating nul appended. -/
def strWithAsSfstr (s : List Char) : Option (List Nat) :=
  if s.any (fun c => c.toNat == 0) then none
  else some (s.map Char.toNat ++ [0])

/-- Embeds `U32CStr::from_ptr_str` / `as_ucstr`: the `SfStr` content is the
buffer up to (excluding) the first nul. -/
def SfStr.fromPtrStr (buf : List Nat) : List Nat :=
  buf.takeWhile (fun u => u != 0)

/-- encode-then-decode: convert a host string to the foreign UTF-32 buffer
via `with_as_sfstr`, view it as an `SfStr`, and read it back with
`SfStr::to_rust_string`. -/
def roundTrip (s : List Char) : Option (List Char) :=
  (strWithAsSfstr s).bind fun b => SfStr.toRustString (SfStr.fromPtrStr b)

/-- Predicate `validScalar` agrees with the validity predicate baked into `Char`. -/
theorem validScalar_eq_isValidChar (u : Nat) :
    validScalar u = true ↔ u.isValidChar := by
  simp [validScalar, Nat.isValidChar]

/-- Every code unit obtained from a host `Char` is a valid scalar. -/
theorem validScalar_toNat (c : Char) : validScalar c.toNat = true :=
  (validScalar_eq_isValidChar c.toNat).mpr c.valid

/-- Decoding a buffer of code units that all came from host chars succeeds
and returns those chars. -/
theorem decodeFrom_map_toNat (s : List Char) (i : Nat) :
    decodeFrom i (s.map Char.toNat) = .ok s := by
  induction s generalizing i with
  | nil => rfl
  | cons c rest ih =>
    simp only [List.map_cons, decodeFrom, validScalar_toNat c, if_pos, ih (i + 1),
      Char.ofNat_toNat]

/-- The decoding loop succeeds exactly when every code unit is a valid
scalar (at any starting position). -/
theorem decodeFrom_ok_iff_all_valid (buf : List Nat) : ∀ i : Nat,
    (∃ cs, decodeFrom i buf = .ok cs) ↔ ∀ u ∈ buf, validScalar u = true := by
  induction buf with
  | nil =>
    intro i
    simp [decodeFrom]
  | cons u rest ih =>
    intro i
    constructor
    · rintro ⟨cs, hcs⟩ v hv
      simp only [decodeFrom] at hcs
      by_cases hu : validScalar u = true
      · rw [if_pos hu] at hcs
        rcases List.mem_cons.mp hv with hv | hv
        · exact hv ▸ hu
        · cases hrest : decodeFrom (i + 1) rest with
          | ok cs2 => exact ((ih (i + 1)).mp ⟨cs2, hrest⟩) v hv
          | error e => rw [hrest] at hcs; exact absurd hcs (by simp)
      · rw [if_neg hu] at hcs
        exact absurd hcs (by simp)
    · intro hall
      have hu : validScalar u = true := hall u (by simp)
      obtain ⟨cs, hcs⟩ := (ih (i + 1)).mpr fun v hv => hall v (by simp [hv])
      refine ⟨Char.ofNat u :: cs, ?_⟩
      simp only [decodeFrom, if_pos hu, hcs]

/-- C3 counterexample: the surrogate code unit `0xD800` makes the
non-fallible `SfStr::to_rust_string` panic (`unwrap` of an `Err`), so
"never fails" does not hold for it. -/
theorem to_rust_string_panics_on_invalid :
    SfStr.toRustString [0xD800] = none := by
  rfl

/-- C3 amended: only the lossy path (`Display for SfString`, via
`to_string_lossy`) is total — it keeps the length and maps every invalid
code unit to the replacement character and every valid one to its char —
while the other non-fallible conversion, `SfStr::to_rust_string`, succeeds
exactly on fully valid buffers (and panics otherwise). -/
theorem lossy_decode_total (buf : List Nat) :
    (SfString.displayString buf).length = buf.length
    ∧ (∀ i, i < buf.length → validScalar (buf.getD i 0) = false →
        (SfString.displayString buf).getD i replacementChar = replacementChar)
    ∧ (∀ i, i < buf.length → validScalar (buf.getD i 0) = true →
        (SfString.displayString buf).getD i replacementChar = Char.ofNat (buf.getD i 0))
    ∧ ((SfStr.toRustString buf).isSome = true ↔ ∀ u ∈ buf, validScalar u = true) := by
  refine ⟨by simp [SfString.displayString, toStringLossy], ?_, ?_, ?_⟩
  · intro i hi hbad
    have hb := List.getD_eq_getElem buf 0 hi
    rw [hb] at hbad
    have hlen2 : i < (SfString.displayString buf).length := by
      simpa [SfString.displayString, toStringLossy] using hi
    rw [List.getD_eq_getElem _ _ hlen2]
    simp [SfString.displayString, toStringLossy, hbad]
  · intro i hi hgood
    have hb := List.getD_eq_getElem buf 0 hi
    rw [hb] at hgood ⊢
    have hlen2 : i < (SfString.displayString buf).length := by
      simpa [SfString.displayString, toStringLossy] using hi
    rw [List.getD_eq_getElem _ _ hlen2]
    simp [SfString.displayString, toStringLossy, hgood]
  · rw [← decodeFrom_ok_iff_all_valid buf 0]
    unfold SfStr.toRustString SfStr.tryToRustString
    cases h : decodeFrom 0 buf with
    | ok cs => simp [Except.toOption, h]
    | error e => simp [Except.toOption, h]

/-- Witness for C3 (amended) on a buffer with one valid and one invalid
unit. -/
theorem lossy_decode_total_witness :
    (SfString.displayString [65, 0xD800]).getD 1 replacementChar = replacementChar
    ∧ (SfString.displayString [65, 0xD800]).getD 0 replacementChar = Char.ofNat 65 :=
  ⟨(lossy_decode_total [65, 0xD800]).2.1 1 (by decide) (by decide),
   (lossy_decode_total [65, 0xD800]).2.2.1 0 (by decide) (by decide)⟩

/-- The decoding loop, started at position `k`, reports index `k + i` when
the first invalid code unit of the remaining buffer sits at offset `i`. -/
theorem decodeFrom_error_at_first_invalid (buf : List Nat) : ∀ (k i : Nat),
    i < buf.length →
    (∀ j, j < i → validScalar (buf.getD j 0) = true) →
    validScalar (buf.getD i 0) = false →
    decodeFrom k buf = .error ⟨k + i⟩ := by
  induction buf with
  | nil =>
    intro k i hlen _ _
    simp at hlen
  | cons u rest ih =>
    intro k i hlen hvalid hbad
    match i with
    | 0 =>
      have hu : validScalar u = false := by simpa using hbad
      simp only [decodeFrom, hu, Bool.false_eq_true, if_false, Nat.add_zero]
    | (m + 1) =>
      have hu : validScalar u = true := by simpa using hvalid 0 (Nat.succ_pos m)
      have hrest : decodeFrom (k + 1) rest = .error ⟨(k + 1) + m⟩ := by
        refine ih (k + 1) m (by simpa using hlen) (fun j hj => ?_) (by simpa using hbad)
        simpa using hvalid (j + 1) (by omega)
      have harith : (k + 1) + m = k + (m + 1) := by omega
      simp only [decodeFrom, hu, if_true, hrest, harith]

/-- C4: when a UTF-32 buffer's first invalid code unit sits at zero-based
position `i`, `SfStr::try_to_rust_string` fails with a typed
`SfStrConvError` whose reported `index` equals `i` (the input is consumed
read-only: the result is a pure function of the unchanged buffer). -/
theorem try_decode_reports_first_invalid_index (buf : List Nat) (i : Nat)
    (hlen : i < buf.length)
    (hvalid : ∀ j, j < i → validScalar (buf.getD j 0) = true)
    (hbad : validScalar (buf.getD i 0) = false) :
    SfStr.tryToRustString buf = .error ⟨i⟩
    ∧ (SfStr.tryToRustString buf).toOption.isNone = true := by
  have h := decodeFrom_error_at_first_invalid buf 0 i hlen hvalid hbad
  rw [Nat.zero_add] at h
  exact ⟨h, by simp [SfStr.tryToRustString, h, Except.toOption]⟩

/-- Witness for C4: buffer `[65, 0xD800, 66]` has its first invalid unit
at position 1, and the reported index is 1. -/
theorem try_decode_reports_first_invalid_index_witness :
    SfStr.tryToRustString [65, 0xD800, 66] = .error ⟨1⟩ :=
  (try_decode_reports_first_invalid_index [65, 0xD800, 66] 1 (by decide)
    (by decide) (by decide)).1

/-- Reading a nul-terminated buffer whose payload contains no nul recovers
exactly the payload. -/
theorem fromPtrStr_append_nul (l : List Nat) (h : ∀ u ∈ l, u ≠ 0) :
    SfStr.fromPtrStr (l ++ [0]) = l := by
  induction l with
  | nil => rfl
  | cons u rest ih =>
    have hu : u ≠ 0 := h u (by simp)
    have hrest : SfStr.fromPtrStr (rest ++ [0]) = rest :=
      ih fun v hv => h v (by simp [hv])
    simp only [SfStr.fromPtrStr, List.cons_append, List.takeWhile_cons] at hrest ⊢
    simp [hu, hrest]

/-- C5 counterexample: the one-character string `"\0"` consists of valid
Unicode scalar values, yet `U32CString::from_str(..).unwrap()` in
`with_as_sfstr` panics on it, so `decode(encode(s)) == s` fails there. -/
theorem round_trip_fails_on_nul :
    roundTrip [Char.ofNat 0] ≠ some [Char.ofNat 0] := by
  decide

/-- C5 amended: for every host string containing no nul character,
decoding the encoded UTF-32 buffer yields the original string;
`encode` panics on strings containing nul. -/
theorem round_trip_id_without_nul (s : List Char)
    (h : ∀ c ∈ s, c.toNat ≠ 0) :
    roundTrip s = some s := by
  have hany : s.any (fun c => c.toNat == 0) = false := by
    simp only [List.any_eq_false]
    intro c hc
    simpa using h c hc
  have henc : strWithAsSfstr s = some (s.map Char.toNat ++ [0]) := by
    simp [strWithAsSfstr, hany]
  have hmem : ∀ u ∈ s.map Char.toNat, u ≠ 0 := by
    intro u hu
    obtain ⟨c, hc, rfl⟩ := List.mem_map.mp hu
    exact h c hc
  have hcontent : SfStr.fromPtrStr (s.map Char.toNat ++ [0]) = s.map Char.toNat :=
    fromPtrStr_append_nul _ hmem
  simp [roundTrip, henc, hcontent, SfStr.toRustString, SfStr.tryToRustString,
    decodeFrom_map_toNat s 0, Except.toOption]

/-- Witness for C5 (amended) on the concrete string `"hi"`. -/
theorem round_trip_id_without_nul_witness :
    roundTrip [Char.ofNat 104, Char.ofNat 105] =
      some [Char.ofNat 104, Char.ofNat 105] :=
  round_trip_id_without_nul [Char.ofNat 104, Char.ofNat 105] (by decide)

/-- C6 counterexample: the well-formed host string `"a\0"` makes the
encode path (`with_as_sfstr` for `&str`) panic instead of succeeding. -/
theorem encode_panics_on_interior_nul :
    strWithAsSfstr [Char.ofNat 97, Char.ofNat 0] = none := by
  decide

/-- C6 amended: for every well-formed host string containing no nul
character, the encode path succeeds without panicking and produces exactly
the string's code units followed by a terminating nul (a null-terminated
UTF-32 buffer). -/
theorem encode_succeeds_null_terminated (s : List Char)
    (h : ∀ c ∈ s, c.toNat ≠ 0) :
    strWithAsSfstr s = some (s.map Char.toNat ++ [0])
    ∧ ∀ b, strWithAsSfstr s = some b → b.getLast? = some 0 := by
  have hany : s.any (fun c => c.toNat == 0) = false := by
    simp only [List.any_eq_false]
    intro c hc
    simpa using h c hc
  refine ⟨by simp [strWithAsSfstr, hany], ?_⟩
  intro b hb
  simp only [strWithAsSfstr, hany, Bool.false_eq_true, if_false, Option.some.injEq] at hb
  rw [← hb]
  simp [List.getLast?_append]

/-- Witness for C6 (amended) on the concrete string `"ab"`. -/
theorem encode_succeeds_null_terminated_witness :
    strWithAsSfstr [Char.ofNat 97, Char.ofNat 98] =
      some [97, 98, 0] :=
  (encode_succeeds_null_terminated [Char.ofNat 97, Char.ofNat 98] (by decide)).1

/-- A two-component vector with exact rational coordinates, standing in
for `Vector2f` (the claim's inputs are exactly representable). -/
structure Vector2q where
  x : ℚ
  y : ℚ
deriving DecidableEq

/-- Modelled from the spec: the foreign view state behind the opaque
`sfView` handle (the view logic lives in the foreign library, not in the
source): a center and a size. -/
structure ViewState where
  center : Vector2q
  size : Vector2q
deriving DecidableEq

/-- Modelled from the spec: `sfView_new` creates the default view of
rectangle `(0, 0, 1000, 1000)`, i.e. size `(1000, 1000)` (center
`(500, 500)`), per `View::new`'s documentation. -/
def View.defaultState : ViewState :=
  ⟨⟨500, 500⟩, ⟨1000, 1000⟩⟩

/-- Modelled from the spec: `View::zoom` passes the factor straight to
`sfView_zoom`, which multiplies the current view size by it. -/
def View.zoom (v : ViewState) (factor : ℚ) : ViewState :=
  { v with size := ⟨v.size.x * factor, v.size.y * factor⟩ }

/-- Embeds `View::size`, which delegates to `sfView_getSize`, which reads the stored
size. -/
def View.sizeQuery (v : ViewState) : Vector2q :=
  v.size

/-- C9: a fresh default view has size `(1000, 1000)`; after `zoom(2.0)`
its `size()` is `(2000, 2000)`; and in general `zoom` is a pass-through
multiplicative factor on the view size. -/
theorem default_view_zoom_doubles_size :
    View.sizeQuery View.defaultState = ⟨1000, 1000⟩
    ∧ View.sizeQuery (View.zoom View.defaultState 2) = ⟨2000, 2000⟩
    ∧ ∀ (v : ViewState) (f : ℚ),
        (View.sizeQuery (View.zoom v f)).x = (View.sizeQuery v).x * f
        ∧ (View.sizeQuery (View.zoom v f)).y = (View.sizeQuery v).y * f := by
  refine ⟨rfl, ?_, fun v f => ⟨rfl, rfl⟩⟩
  show (⟨⟨500, 500⟩, ⟨1000 * 2, 1000 * 2⟩⟩ : ViewState).size = ⟨2000, 2000⟩
  norm_num

/-- The iterator state over a foreign `sfStdStringVector`: the foreign
length captured in `into_iter` and a cursor. -/
structure SfStdStringVectorIter where
  len : Nat
  cursor : Nat
deriving DecidableEq, Repr

/-- Embeds `Iterator::next` for `sfStdStringVectorIter`: `None` once the cursor
reaches the length; otherwise yields the element obtained by
`sfStdStringVector_index(vec, cursor)` — modelled by the index passed —
and advances the cursor. -/
def SfStdStringVectorIter.next (it : SfStdStringVectorIter) :
    Option Nat × SfStdStringVectorIter :=
  if it.cursor ≥ it.len then (none, it)
  else (some it.cursor, ⟨it.len, it.cursor + 1⟩)

/-- Embeds `IntoIterator for &sfStdStringVector`: cursor `0`, length from
`sfStdStringVector_getLength`. -/
def sfStdStringVector.intoIter (len : Nat) : SfStdStringVectorIter :=
  ⟨len, 0⟩

/-- Call `next` `k` times, collecting the yielded values in order. -/
def runIter (it : SfStdStringVectorIter) : Nat → List (Option Nat)
  | 0 => []
  | k + 1 =>
    let step := it.next
    step.1 :: runIter step.2 k

/-- Once the cursor has reached the length, every further `next` yields
`none`. -/
theorem runIter_exhausted (k : Nat) : ∀ it : SfStdStringVectorIter,
    it.len ≤ it.cursor → runIter it k = List.replicate k none := by
  induction k with
  | zero => intro it _; rfl
  | succ m ih =>
    intro it hle
    simp only [runIter, SfStdStringVectorIter.next, if_pos (by omega : it.cursor ≥ it.len)]
    rw [ih it hle]
    rfl

/-- From any cursor `c` with `c + d = len`, the iterator yields the
indices `c, c+1, …, len-1` and then `none` forever. -/
theorem runIter_from (d : Nat) : ∀ (len c extra : Nat), c + d = len →
    runIter ⟨len, c⟩ (d + extra) =
      (List.range' c d).map some ++ List.replicate extra none := by
  induction d with
  | zero =>
    intro len c extra hc
    simpa using runIter_exhausted extra ⟨len, c⟩ (by show len ≤ c; omega)
  | succ m ih =>
    intro len c extra hc
    have hlt : ¬ c ≥ len := by omega
    simp only [Nat.succ_add, runIter, SfStdStringVectorIter.next, if_neg hlt]
    rw [ih len (c + 1) extra (by omega)]
    simp [List.range']

/-- C10: iterating a vector of foreign length `len` yields exactly the
indices `0, 1, …, len-1` (each passed to `sfStdStringVector_index` once, in
increasing order) and then `none` on every subsequent call — the iterator
is fused once the cursor reaches `len`. -/
theorem std_string_vector_iter_yields_range (len extra : Nat) :
    runIter (sfStdStringVector.intoIter len) (len + extra) =
      (List.range len).map some ++ List.replicate extra none := by
  rw [sfStdStringVector.intoIter, List.range_eq_range']
  exact runIter_from len len 0 extra (by omega)
